import Mathlib

/-!
Verification of `mkwineprefix` (`src/mkwineprefix/prefix.py` and
`src/mkwineprefix/_windows.py`) against its natural-language specification.

The program's single entry point `create_wine_prefix` performs a linear,
conditionally-executed sequence of side effects: one idempotent directory
creation, a precondition check, and a series of external process invocations,
filesystem mutations, one network fetch and one optional database insert.
We embed it shallowly as a pure planner: a function from the request, the
ambient process environment and the observable external state (existence of
the target, discoverability of tools, ...) to the ordered list of emitted
side-effect actions plus the outcome.  Reading the ambient environment
(`os.environ`) is modelled by an explicit `Ambient` record; `shutil.which`,
`Path.exists` and the Q4Wine database probe are modelled by an explicit
`ExternalState` record.  The two Python `set`s iterated when `noto_sans` is
requested have unspecified iteration order, so the planner takes the two
iteration orders as extra parameters (lists that are permutations of the
fixed member sets).

Process failure semantics (`subprocess.run(..., check=True)` and the single
`try`/`except CalledProcessError` around the winetricks invocation) are
embedded by tagging each emitted invocation with whether a nonzero exit is
tolerated (it is exactly for the invocation issued inside the `try` block)
and by an executor over an exit-code oracle that aborts at the first
non-tolerated nonzero exit.

The font descriptor encoder (`struct.pack('=5l8B64B', ...)` over a `LOGFONTW`
tuple and a UTF-16LE face name padded with `ljust`) is embedded as a byte-list
producing function; `=` selects native byte order with standard sizes, which
is little-endian on every platform this program targets, so the embedding
fixes little-endian.  `struct.error` conditions (wrong argument count for the
64-byte field, out-of-range values) are modelled by returning `none`.
-/

namespace Mkwineprefix

/-! ## Lexicographic string comparison (Python `sorted` / `<` on `str`) -/

/-- Lexicographic comparison of Unicode code-point sequences, exactly the
order Python uses to compare strings: compare code points left to right, a
strict prefix sorts first. -/
def lexLe : List Char → List Char → Bool
  | [], _ => true
  | _ :: _, [] => false
  | a :: as, b :: bs =>
    if a.val.toNat < b.val.toNat then true
    else if b.val.toNat < a.val.toNat then false
    else lexLe as bs

/-- Python string comparison `a <= b` (code-point lexicographic). -/
def strLe (a b : String) : Bool := lexLe a.data b.data

/-- The proposition form of `strLe`, used as the sorting relation. -/
def strRel (a b : String) : Prop := strLe a b = true

instance : DecidableRel strRel := fun a b =>
  inferInstanceAs (Decidable (strLe a b = true))

/-- Python `sorted(set(l))`: the distinct elements of `l` in ascending
code-point-lexicographic order.  (`sorted` over the distinct elements is
order-canonical, so the unspecified iteration order of the Python `set` does
not affect the result.) -/
def sortedDedup (l : List String) : List String :=
  List.insertionSort strRel l.dedup

/-! ## Font descriptor encoder (`_windows.py` constants and the
`struct.pack('=5l8B64B', ...)` call in `create_wine_prefix`) -/

/-- Constant `LF_FULLFACESIZE = 64` from `_windows.py`. -/
def LF_FULLFACESIZE : Nat := 64

/-- Constant `Weight.FW_NORMAL = 400` from `_windows.py`. -/
def FW_NORMAL : Int := 400

/-- Constant `Weight.FW_BOLD = 700` from `_windows.py`. -/
def FW_BOLD : Int := 700

/-- Constant `CharacterSet.DEFAULT_CHARSET = 1` from `_windows.py`. -/
def DEFAULT_CHARSET : Nat := 1

/-- Constant `OutputPrecision.OUT_DEFAULT_PRECIS = 0` from `_windows.py`. -/
def OUT_DEFAULT_PRECIS : Nat := 0

/-- Constant `ClipPrecision.CLIP_DEFAULT_PRECIS = 0` from `_windows.py`. -/
def CLIP_DEFAULT_PRECIS : Nat := 0

/-- Constant `Quality.DEFAULT_QUALITY = 0` from `_windows.py`. -/
def DEFAULT_QUALITY : Nat := 0

/-- Constant `Pitch.VARIABLE_PITCH = 0x02` from `_windows.py`. -/
def VARIABLE_PITCH : Nat := 2

/-- Constant `Family.FF_SWISS = 0x20` from `_windows.py`. -/
def FF_SWISS : Nat := 32

/-- The `LOGFONTW` named tuple from `prefix.py`. -/
structure LOGFONTW where
  lfHeight : Int
  lfWidth : Int
  lfEscapement : Int
  lfOrientation : Int
  lfWeight : Int
  lfItalic : Bool
  lfUnderline : Bool
  lfStrikeOut : Bool
  lfCharSet : Nat
  lfOutPrecision : Nat
  lfClipPrecision : Nat
  lfQuality : Nat
  lfPitchAndFamily : Nat
deriving DecidableEq

/-- UTF-16LE code units of one character, as bytes (Python
`str.encode('utf-16le')`, per character): characters below `0x10000` become
one little-endian 16-bit unit, the rest a surrogate pair. -/
def charUtf16le (c : Char) : List Nat :=
  let n := c.val.toNat
  if n < 65536 then [n % 256, n / 256]
  else
    let m := n - 65536
    let hi := 55296 + m / 1024
    let lo := 56320 + m % 1024
    [hi % 256, hi / 256, lo % 256, lo / 256]

/-- Python `s.encode('utf-16le')` as a byte list. -/
def utf16le (s : String) : List Nat :=
  s.data.foldr (fun c acc => charUtf16le c ++ acc) []

/-- Python `bytes.ljust(n, b'\0')`: pad on the right with zero bytes up to
length `n`; a longer input is returned unchanged. -/
def ljustZeros (l : List Nat) (n : Nat) : List Nat :=
  l ++ List.replicate (n - l.length) 0

/-- The padded face-name bytes built in `create_wine_prefix`:
`face_name.encode('utf-16le').ljust(LF_FULLFACESIZE, b'\0')`. -/
def faceNameBytes (s : String) : List Nat :=
  ljustZeros (utf16le s) LF_FULLFACESIZE

/-- Packing a Python `bool` with format `B`. -/
def boolByte (b : Bool) : Nat := if b then 1 else 0

/-- Little-endian bytes of a signed 32-bit value (format `l` under `=` on the
little-endian platforms this program runs on): two's complement, low byte
first. -/
def int32le (i : Int) : List Nat :=
  let u := (i % 4294967296).toNat
  [u % 256, u / 256 % 256, u / 65536 % 256, u / 16777216 % 256]

/-- Range accepted by `struct.pack` format `l` (signed 32-bit). -/
def int32InRange (i : Int) : Prop := -2147483648 ≤ i ∧ i < 2147483648

instance (i : Int) : Decidable (int32InRange i) :=
  inferInstanceAs (Decidable (_ ∧ _))

/-- The call `struct.pack('=5l8B64B', *LOGFONTW(...), *face_name)` from
`create_wine_prefix`: five little-endian signed 32-bit fields, eight unsigned
bytes, then the 64 face-name bytes.  `struct.error` (an `l` field out of
signed 32-bit range, a `B` field out of byte range, or an argument count
other than the 64 required for the `64B` field) is modelled as `none`. -/
def packLogfont (lf : LOGFONTW) (faceBytes : List Nat) : Option (List Nat) :=
  if int32InRange lf.lfHeight ∧ int32InRange lf.lfWidth ∧
      int32InRange lf.lfEscapement ∧ int32InRange lf.lfOrientation ∧
      int32InRange lf.lfWeight ∧
      lf.lfCharSet < 256 ∧ lf.lfOutPrecision < 256 ∧ lf.lfClipPrecision < 256 ∧
      lf.lfQuality < 256 ∧ lf.lfPitchAndFamily < 256 ∧
      faceBytes.length = LF_FULLFACESIZE ∧ ∀ b ∈ faceBytes, b < 256 then
    some (int32le lf.lfHeight ++ int32le lf.lfWidth ++ int32le lf.lfEscapement ++
      int32le lf.lfOrientation ++ int32le lf.lfWeight ++
      [boolByte lf.lfItalic, boolByte lf.lfUnderline, boolByte lf.lfStrikeOut,
        lf.lfCharSet, lf.lfOutPrecision, lf.lfClipPrecision, lf.lfQuality,
        lf.lfPitchAndFamily] ++
      faceBytes)
  else none

/-- The `LOGFONTW` value built in `create_wine_prefix` for a Noto Sans
window-metrics entry: bold weight only for the `Caption` entry. -/
def notoLogfont (entry_name : String) : LOGFONTW :=
  { lfHeight := -12
    lfWidth := 0
    lfEscapement := 0
    lfOrientation := 0
    lfWeight := if entry_name = "Caption" then FW_BOLD else FW_NORMAL
    lfItalic := false
    lfUnderline := false
    lfStrikeOut := false
    lfCharSet := DEFAULT_CHARSET
    lfOutPrecision := OUT_DEFAULT_PRECIS
    lfClipPrecision := CLIP_DEFAULT_PRECIS
    lfQuality := DEFAULT_QUALITY
    lfPitchAndFamily := Nat.lor VARIABLE_PITCH FF_SWISS }

/-- The binary registry value bytes for one window-metrics entry as built by
`create_wine_prefix` (the pack cannot fail there, so the `none` case is
defaulted away; see `notoBlobBytes_eq_pack`). -/
def notoBlobBytes (entry_name : String) : List Nat :=
  (packLogfont (notoLogfont entry_name) (faceNameBytes "Noto Sans")).getD []

/-- One lowercase hexadecimal digit. -/
def hexDigitChar (n : Nat) : Char :=
  if n < 10 then Char.ofNat (48 + n) else Char.ofNat (87 + n)

/-- Python `f'{x:02x}'` for a byte value. -/
def byteHex (n : Nat) : String :=
  String.mk [hexDigitChar (n / 16), hexDigitChar (n % 16)]

/-- Python `''.join(f'{x:02x}' for x in bs)`. -/
def bytesHex (l : List Nat) : String :=
  l.foldr (fun b acc => byteHex b ++ acc) ""

/-! ## Data model: request, ambient environment, external state -/

/-- The `WineWindowsVersion` literal type from `prefix.py` (an 11-element
closed enumeration). -/
inductive WineWindowsVersion where
  | v11 | v10 | vista | v2k3 | v7 | v8 | xp | v81 | v2k | v98 | v95
deriving DecidableEq

/-- The `WINETRICKS_VERSION_MAPPING` dict from `prefix.py`. -/
def WINETRICKS_VERSION_MAPPING : WineWindowsVersion → String
  | .v11 => "win11"
  | .v10 => "win10"
  | .vista => "vista"
  | .v2k3 => "win2k3"
  | .v7 => "win7"
  | .v8 => "win8"
  | .xp => "winxp"
  | .v81 => "win81"
  | .v2k => "win2k"
  | .v98 => "win98"
  | .v95 => "win95"

/-- The values of `WINETRICKS_VERSION_MAPPING` (the 11 reserved version
keywords), in dict insertion order. -/
def winetricksVersionValues : List String :=
  ["win11", "win10", "vista", "win2k3", "win7", "win8", "winxp", "win81",
    "win2k", "win98", "win95"]

/-- Members of the set `_CREATE_WINE_PREFIX_NOTO_FONT_REPLACEMENTS` from
`prefix.py`, listed in source order (the set itself is unordered). -/
def notoFontReplacements : List String :=
  ["Arial Baltic,186", "Arial CE,238", "Arial CYR,204", "Arial Greek,161",
    "Arial TUR,162", "Courier New Baltic,186", "Courier New CE,238",
    "Courier New CYR,204", "Courier New Greek,161", "Courier New TUR,162",
    "Helv", "Helvetica", "MS Shell Dlg", "MS Shell Dlg 2", "MS Sans Serif",
    "Segoe UI", "System", "Tahoma", "Times", "Times New Roman Baltic,186",
    "Times New Roman CE,238", "Times New Roman CYR,204",
    "Times New Roman Greek,161", "Times New Roman TUR,162", "Tms Rmn",
    "Verdana"]

/-- Members of the set `_CREATE_WINE_PREFIX_NOTO_REGISTRY_ENTRIES` from
`prefix.py`, listed in source order (the set itself is unordered). -/
def notoRegistryEntries : List String :=
  ["Caption", "Icon", "Menu", "Message", "SmCaption", "Status"]

/-- Default DPI (`DEFAULT_DPI = 96` in `prefix.py`). -/
def DEFAULT_DPI : Int := 96

/-- The argument aggregate of `create_wine_prefix` (spec: `PrefixRequest`). -/
structure PrefixRequest where
  prefix_name : String
  _32bit : Bool := false
  asio : Bool := false
  disable_explorer : Bool := false
  disable_services : Bool := false
  dpi : Int := DEFAULT_DPI
  dxva_vaapi : Bool := false
  dxvk_nvapi : Bool := false
  eax : Bool := false
  gtk : Bool := false
  no_associations : Bool := false
  no_gecko : Bool := false
  no_mono : Bool := false
  no_xdg : Bool := false
  noto_sans : Bool := false
  prefix_root : Option String := none
  sandbox : Bool := false
  tmpfs : Bool := false
  tricks : List String := []
  vd : String := "off"
  windows_version : WineWindowsVersion := .v10
  winrt_dark : Bool := false
deriving DecidableEq

/-- The ambient process environment reads performed by `create_wine_prefix`
(`os.environ`), as an explicit immutable value.  `wineesync` models
`environ.get('WINEESYNC', '')` (unset is the empty string, which Python
treats as falsy exactly like an absent variable). -/
structure Ambient where
  display : Option String
  xauthority : Option String
  path : String
  winedebug : Option String
  wineesync : String
  winearch : Option String
  user : Option String
  username : Option String
  home : String
deriving DecidableEq

/-- Observable external state probed by `create_wine_prefix`:
`target.exists()`, whether the prefix root directory already exists (always
true in the reachable case where the target, a child of the root, exists),
`which('winetricks')`, `which('wineasio-register')`, existence of the Q4Wine
database file, and `tempfile.gettempdir()`. -/
structure ExternalState where
  targetExists : Bool
  rootExists : Bool
  winetricksPath : Option String
  wineasioPath : Option String
  q4wineDbExists : Bool
  tmpdir : String
deriving DecidableEq

/-- The environment overlay dict built once in `create_wine_prefix` and
passed as `env=` to the process invocations (spec: `EnvironmentOverlay`). -/
structure WineEnv where
  display : String
  path : String
  winePrefixVal : String
  xauthority : String
  winedebug : String
  winearch : Option String
  wineesync : Option String
deriving DecidableEq

/-- Construction of the environment overlay (`prefix.py` lines 253-270):
`WINEPREFIX` forced to the target, `WINEARCH` present only when a 32-bit
prefix was requested (ambient value preferred, else `win32`), `WINEDEBUG`
defaulted to `fixme-all` when absent, `WINEESYNC` passed through only when
set to a non-empty value. -/
def buildEnv (req : PrefixRequest) (amb : Ambient) (target : String) : WineEnv :=
  { display := amb.display.getD ""
    path := amb.path
    winePrefixVal := target
    xauthority := amb.xauthority.getD ""
    winedebug := amb.winedebug.getD "fixme-all"
    winearch := if req._32bit then some (amb.winearch.getD "win32") else none
    wineesync := if amb.wineesync = "" then none else some amb.wineesync }

/-- Python `environ.get('USER', environ.get('USERNAME', 'user'))`. -/
def usernameOf (amb : Ambient) : String :=
  amb.user.getD (amb.username.getD "user")

/-- The prefix root: the `prefix_root` argument, defaulting to
`~/.local/share/wineprefixes`. -/
def rootPath (req : PrefixRequest) (amb : Ambient) : String :=
  match req.prefix_root with
  | some r => r
  | none => amb.home ++ "/.local/share/wineprefixes"

/-- The target directory `prefix_root / prefix_name`. -/
def targetPath (req : PrefixRequest) (amb : Ambient) : String :=
  rootPath req amb ++ "/" ++ req.prefix_name

/-- The planning failure conditions: `FileExistsError` when the target
already exists. -/
inductive PlanError where
  | fileExists
deriving DecidableEq

/-- One emitted side effect (spec: `InvocationStep` plus the direct
filesystem/network/database effects).  `run` carries the binary, the argument
vector, the process environment passed via `env=` (`none` when the invocation
inherits the ambient environment, as `sp.run` without `env=` does), and
whether a nonzero exit is tolerated (true exactly for the invocation issued
inside the `try`/`except CalledProcessError` block).
`ensureDir` is `Path.mkdir(parents=True, exist_ok=True)`; `extractTo` is a
tar member extraction `(member path in archive, renamed file name,
destination directory)`; `dbPopulate` is the Q4Wine catalog-database
population. -/
inductive Action where
  | ensureDir (path : String)
  | run (prog : String) (args : List String) (env : Option WineEnv) (tolerated : Bool)
  | rmtree (path : String)
  | symlink (linkPath : String) (dest : String)
  | fetch (url : String)
  | extractTo (member : String) (newName : String) (destDir : String)
  | copyFile (src : String) (dst : String)
  | dbPopulate (name : String) (target : String)
deriving DecidableEq

/-! ## Trick-argument set construction -/

/-- Python `t.startswith('vd=')`. -/
def vdPrefixed (t : String) : Bool :=
  t.data.take 3 == ['v', 'd', '=']

/-- The filter applied to the caller-supplied `tricks` iterable
(`prefix.py` lines 245-247): drop entries among the version-mapping values
and entries starting with `vd=`. -/
def allowedTrick (t : String) : Bool :=
  !(winetricksVersionValues.contains t) && !(vdPrefixed t)

/-- The initial `tricks_list` built from the caller-supplied tricks. -/
def filteredTricks (req : PrefixRequest) : List String :=
  req.tricks.filter allowedTrick

/-- Conditional block helper: the steps/strings contributed by one `if` in
the source. -/
def opt {α : Type} (c : Prop) [Decidable c] (l : List α) : List α :=
  if c then l else []

/-- The full `tricks_list` right before the winetricks invocation: the
filtered caller tricks, then `dxvk` when the NVAPI interop layer is
requested, then the selected version keyword, then the sandbox keywords,
then the virtual-desktop keyword. -/
def tricksListFull (req : PrefixRequest) : List String :=
  filteredTricks req
    ++ opt req.dxvk_nvapi ["dxvk"]
    ++ [WINETRICKS_VERSION_MAPPING req.windows_version]
    ++ opt req.sandbox ["isolate_home", "sandbox"]
    ++ opt (req.vd ≠ "off") ["vd=" ++ req.vd]

/-- The trick-argument portion of the winetricks argument vector:
`sorted(set(tricks_list))`. -/
def finalTricks (req : PrefixRequest) : List String :=
  sortedDedup (tricksListFull req)

/-- The full winetricks argument vector
`('--force', '--country=US', '--unattended', f'prefix={prefix_name}',
*sorted(set(tricks_list)))`. -/
def winetricksArgs (req : PrefixRequest) : List String :=
  ["--force", "--country=US", "--unattended", "prefix=" ++ req.prefix_name]
    ++ finalTricks req

/-! ## Registry keys and step constructors -/

def desktopKey : String := "HKCU\\Control Panel\\Desktop"

def dxva2Key : String := "HKCU\\Software\\Wine\\DXVA2"

def directSoundKey : String := "HKCU\\Software\\Wine\\DirectSound"

def wineKey : String := "HKCU\\Software\\Wine"

def personalizeKey : String :=
  "HKCU\\Software\\Microsoft\\Windows\\CurrentVersion\\Themes\\Personalize"

def fileAssocKey : String := "HKCU\\Software\\Wine\\Explorer\\FileAssociations"

def dllOverridesKey : String := "HKCU\\Software\\Wine\\DllOverrides"

def ngxKey : String := "HKLM\\Software\\NVIDIA Corporation\\Global\\NGXCore"

def fontSubsKey : String :=
  "HKLM\\Software\\Microsoft\\Windows NT\\CurrentVersion\\FontSubstitutes"

def windowMetricsKey : String := "HKCU\\Control Panel\\Desktop\\WindowMetrics"

/-- `('wineboot', '--init')`. -/
def bootStep (ev : WineEnv) : Action :=
  Action.run "wineboot" ["--init"] (some ev) false

/-- `('wineserver', '-w')`. -/
def serverStep (ev : WineEnv) : Action :=
  Action.run "wineserver" ["-w"] (some ev) false

/-- The DPI registry edit (`LogPixels`), with the DPI stringified in decimal
by Python `str(dpi)`. -/
def dpiStep (ev : WineEnv) (d : Int) : Action :=
  Action.run "wine"
    ["reg", "add", desktopKey, "/t", "REG_DWORD", "/v", "LogPixels", "/d",
      toString d, "/f"] (some ev) false

def dxvaStep (ev : WineEnv) : Action :=
  Action.run "wine"
    ["reg", "add", dxva2Key, "/v", "backend", "/d", "va", "/f"] (some ev) false

def eaxStep (ev : WineEnv) : Action :=
  Action.run "wine"
    ["reg", "add", directSoundKey, "/v", "EAXEnabled", "/d", "Y", "/f"]
    (some ev) false

def gtkStep (ev : WineEnv) : Action :=
  Action.run "wine"
    ["reg", "add", wineKey, "/v", "ThemeEngine", "/d", "GTK", "/f"]
    (some ev) false

def winrtStep (ev : WineEnv) (k : String) : Action :=
  Action.run "wine"
    ["reg", "add", personalizeKey, "/t", "REG_DWORD", "/v", k, "/d", "0", "/f"]
    (some ev) false

def noAssocStep (ev : WineEnv) : Action :=
  Action.run "wine"
    ["reg", "add", fileAssocKey, "/v", "Enable", "/d", "N", "/f"]
    (some ev) false

/-- A `DllOverrides` edit with no `/d` value (`no_xdg`, `no_mono`,
`no_gecko`, `disable_explorer`, `disable_services`). -/
def dllOverridePlain (ev : WineEnv) (item : String) : Action :=
  Action.run "wine"
    ["reg", "add", dllOverridesKey, "/v", item, "/f"] (some ev) false

/-- A `DllOverrides` edit setting an override to `native` (the NVAPI interop
blocks), issued through `wine` or `wine64`. -/
def dllOverrideNative (prog : String) (ev : WineEnv) (item : String) : Action :=
  Action.run prog
    ["reg", "add", dllOverridesKey, "/v", item, "/d", "native", "/f"]
    (some ev) false

def ngxStep (ev : WineEnv) : Action :=
  Action.run "wine64"
    ["reg", "add", ngxKey, "/t", "REG_SZ", "/v", "FullPath", "/d",
      "C:\\Windows\\system32", "/f"] (some ev) false

def fontSubStep (ev : WineEnv) (font_name : String) : Action :=
  Action.run "wine"
    ["reg", "add", fontSubsKey, "/t", "REG_SZ", "/v", font_name, "/d",
      "Noto Sans", "/f"] (some ev) false

def uiFontStep (ev : WineEnv) (entry_name : String) : Action :=
  Action.run "wine"
    ["reg", "add", windowMetricsKey, "/t", "REG_BINARY", "/v",
      entry_name ++ "Font", "/d", bytesHex (notoBlobBytes entry_name), "/f"]
    (some ev) false

/-- The winetricks invocation.  Note the source runs it without `env=env`
(`sp.run(cmd, check=True)`, `prefix.py` line 400) and inside the only
`try`/`except CalledProcessError` block, so its environment field is `none`
and it is the only tolerated-failure step. -/
def winetricksStep (w : String) (req : PrefixRequest) : Action :=
  Action.run w (winetricksArgs req) none true

def vkd3dStep (ev : WineEnv) : Action :=
  Action.run "setup_vkd3d_proton.sh" ["install"] (some ev) false

def nvidiaLibsUrl : String :=
  "https://github.com/SveSop/nvidia-libs/releases/download/v0.8.3/nvidia-libs-0.8.3.tar.xz"

def prefixTar : String := "nvidia-libs-0.8.3"

/-- One x32 library member extraction into `drive_c/windows/syswow64`. -/
def extractX32 (target item : String) : Action :=
  Action.extractTo (prefixTar ++ "/x32/" ++ item ++ ".dll") (item ++ ".dll")
    (target ++ "/drive_c/windows/syswow64")

/-- One x64 library member extraction into `drive_c/windows/system32`. -/
def extractX64 (target item : String) : Action :=
  Action.extractTo (prefixTar ++ "/x64/" ++ item ++ ".dll") (item ++ ".dll")
    (target ++ "/drive_c/windows/system32")

/-! ## Plan segments, in source order -/

/-- The two fixed initialization invocations. -/
def stepsBoot (ev : WineEnv) : List Action :=
  [bootStep ev, serverStep ev]

/-- The conditional registry-edit invocations, strictly in source order. -/
def stepsFlags (req : PrefixRequest) (ev : WineEnv) : List Action :=
  opt (req.dpi ≠ DEFAULT_DPI) [dpiStep ev req.dpi]
    ++ opt req.dxva_vaapi [dxvaStep ev]
    ++ opt req.eax [eaxStep ev]
    ++ opt req.gtk [gtkStep ev]
    ++ opt req.winrt_dark
      [winrtStep ev "AppsUseLightTheme", winrtStep ev "SystemUsesLightTheme"]
    ++ opt req.no_associations [noAssocStep ev]
    ++ opt req.no_xdg [dllOverridePlain ev "winemenubuilder.exe"]
    ++ opt req.no_mono [dllOverridePlain ev "mscoree"]
    ++ opt req.no_gecko [dllOverridePlain ev "mshtml"]
    ++ opt req.disable_explorer [dllOverridePlain ev "explorer.exe"]
    ++ opt req.disable_services [dllOverridePlain ev "services.exe"]

/-- The tmpfs redirect: remove the two temp directories and symlink them to
the system temp directory. -/
def stepsTmpfs (req : PrefixRequest) (amb : Ambient) (ext : ExternalState)
    (target : String) : List Action :=
  opt req.tmpfs
    [Action.rmtree (target ++ "/drive_c/users/" ++ usernameOf amb ++ "/Temp"),
      Action.rmtree (target ++ "/drive_c/windows/temp"),
      Action.symlink (target ++ "/drive_c/users/" ++ usernameOf amb ++ "/Temp")
        ext.tmpdir,
      Action.symlink (target ++ "/drive_c/windows/temp") ext.tmpdir]

/-- The winetricks invocation, present only when `which('winetricks')`
discovers the tool. -/
def stepsWinetricks (req : PrefixRequest) (ext : ExternalState) : List Action :=
  match ext.winetricksPath with
  | some w => [winetricksStep w req]
  | none => []

/-- The NVAPI interop block: installer, archive fetch, per-library override
edit followed by extraction (x32 always, x64 only for non-32-bit prefixes),
the two support-file copies, and the NGXCore path edit (non-32-bit only).
The two item loops iterate fixed tuples, unrolled here. -/
def stepsDxvk (req : PrefixRequest) (ev : WineEnv) (target : String) :
    List Action :=
  opt req.dxvk_nvapi
    ([vkd3dStep ev, Action.fetch nvidiaLibsUrl,
        dllOverrideNative "wine" ev "nvcuda", extractX32 target "nvcuda",
        dllOverrideNative "wine" ev "nvcuvid", extractX32 target "nvcuvid",
        dllOverrideNative "wine" ev "nvencodeapi", extractX32 target "nvencodeapi",
        dllOverrideNative "wine" ev "nvapi", extractX32 target "nvapi"]
      ++ opt (req._32bit = false)
        [dllOverrideNative "wine64" ev "nvcuda", extractX64 target "nvcuda",
          dllOverrideNative "wine64" ev "nvoptix", extractX64 target "nvoptix",
          dllOverrideNative "wine64" ev "nvcuvid", extractX64 target "nvcuvid",
          dllOverrideNative "wine64" ev "nvencodeapi64", extractX64 target "nvencodeapi64",
          dllOverrideNative "wine64" ev "nvapi64", extractX64 target "nvapi64",
          dllOverrideNative "wine64" ev "nvofapi64", extractX64 target "nvofapi64"]
      ++ [Action.copyFile "/lib64/nvidia/wine/nvngx.dll"
            (target ++ "/drive_c/windows/system32/nvngx.dll"),
          Action.copyFile "/lib64/nvidia/wine/_nvngx.dll"
            (target ++ "/drive_c/windows/system32/_nvngx.dll")]
      ++ opt (req._32bit = false) [ngxStep ev])

/-- The Noto Sans block: one font-substitution edit per member of the
substitution set, then one binary window-metrics edit per UI-element entry.
`fo` and `uo` are the (unspecified) iteration orders of the two sets. -/
def stepsNoto (req : PrefixRequest) (ev : WineEnv) (fo uo : List String) :
    List Action :=
  opt req.noto_sans (fo.map (fontSubStep ev) ++ uo.map (uiFontStep ev))

/-- The ASIO registration, present only when requested and the registration
tool is discoverable (otherwise only a warning is logged). -/
def stepsAsio (req : PrefixRequest) (ev : WineEnv) (ext : ExternalState) :
    List Action :=
  opt req.asio
    (match ext.wineasioPath with
      | some r => [Action.run r [] (some ev) false]
      | none => [])

/-- The optional Q4Wine catalog-database population, skipped silently when
the database file is absent. -/
def stepsDb (req : PrefixRequest) (ext : ExternalState) (target : String) :
    List Action :=
  opt ext.q4wineDbExists [Action.dbPopulate req.prefix_name target]

/-- The ordered side-effect sequence emitted by `create_wine_prefix`.  The
prefix-root `mkdir(parents=True, exist_ok=True)` is issued before the
`target.exists()` check (source lines 249-252); when the target exists the
function raises `FileExistsError` there and nothing further is emitted. -/
def planActions (req : PrefixRequest) (amb : Ambient) (ext : ExternalState)
    (fo uo : List String) : List Action :=
  let root := rootPath req amb
  let target := targetPath req amb
  let ev := buildEnv req amb target
  Action.ensureDir root ::
    (if ext.targetExists then []
      else
        stepsBoot ev ++ stepsFlags req ev ++ stepsTmpfs req amb ext target
          ++ stepsWinetricks req ext ++ stepsDxvk req ev target
          ++ stepsNoto req ev fo uo ++ stepsAsio req ev ext
          ++ stepsDb req ext target)

/-- The outcome of the planning run: `FileExistsError` when the target
exists, otherwise the target path is returned. -/
def planResult (req : PrefixRequest) (amb : Ambient) (ext : ExternalState) :
    Except PlanError String :=
  if ext.targetExists then Except.error PlanError.fileExists
  else Except.ok (targetPath req amb)

/-- The shallow embedding of `create_wine_prefix`: the emitted side-effect
sequence together with the outcome. -/
def create_wine_prefix (req : PrefixRequest) (amb : Ambient)
    (ext : ExternalState) (fo uo : List String) :
    List Action × Except PlanError String :=
  (planActions req amb ext fo uo, planResult req amb ext)

/-! ## Observation predicates and the failure-semantics executor -/

/-- Whether an action is an external process invocation. -/
def isRun : Action → Bool
  | Action.run _ _ _ _ => true
  | _ => false

/-- Whether an action invokes an external process (spec: "no external
process is invoked"). -/
def isExternalInvocation : Action → Bool := isRun

/-- Whether an action is a process invocation whose nonzero exit is
tolerated (caught by the `except CalledProcessError` handler). -/
def runTolerated : Action → Bool
  | Action.run _ _ _ tol => tol
  | _ => false

/-- Whether performing the action mutates the filesystem, given whether the
prefix root directory already exists: `mkdir(parents=True, exist_ok=True)`
creates something only when the directory is absent; process invocations and
the network fetch are not themselves filesystem mutations by the planner. -/
def mutatesFilesystem (rootExists : Bool) : Action → Bool
  | Action.ensureDir _ => !rootExists
  | Action.run _ _ _ _ => false
  | Action.fetch _ => false
  | _ => true

/-- Whether an invocation is the DPI registry edit (a `wine reg add` against
`HKCU\Control Panel\Desktop` setting `LogPixels`). -/
def isDpiStep : Action → Bool
  | Action.run _ args _ _ =>
    args.take 7 == ["reg", "add", desktopKey, "/t", "REG_DWORD", "/v", "LogPixels"]
  | _ => false

/-- Whether an invocation belongs to the Noto Sans block (a registry edit
against the font-substitution key or the window-metrics key). -/
def isNotoStep : Action → Bool
  | Action.run _ args _ _ =>
    args.take 3 == ["reg", "add", fontSubsKey]
      || args.take 3 == ["reg", "add", windowMetricsKey]
  | _ => false

/-- Dropping the Noto Sans block steps (whose relative order is the
iteration order of the two unordered sets). -/
def stripNoto (l : List Action) : List Action :=
  l.filter (fun a => !isNotoStep a)

/-- Whether an action is 64-bit specific: a registry edit issued through
`wine64`, the NGXCore `FullPath` edit, or an extraction of an `x64` archive
member. -/
def is64BitOnlyStep : Action → Bool
  | Action.run p args _ _ =>
    (args.take 2 == ["reg", "add"] && p == "wine64")
      || args.take 3 == ["reg", "add", ngxKey]
  | Action.extractTo member _ _ =>
    member.data.take 22 == ("nvidia-libs-0.8.3/x64/").data
  | _ => false

/-- A process invocation run with an environment other than the given
overlay (including inheriting the ambient environment). -/
def runWithoutOverlay (ev : WineEnv) : Action → Bool
  | Action.run _ _ e _ => !(e == some ev)
  | _ => false

/-- Whether an action is an invocation that fails fatally under the given
exit-code oracle: a nonzero exit that is not tolerated. -/
def fatalFailure (code : Action → Nat) (a : Action) : Bool :=
  match a with
  | Action.run _ _ _ tol => !tol && !(code a == 0)
  | _ => false

/-- Outcome of executing a plan against an exit-code oracle. -/
inductive ExecOutcome where
  | completed
  | aborted (a : Action)
deriving DecidableEq

/-- Executing the plan: each invocation blocks in order; the first nonzero
exit of a non-tolerated invocation aborts the whole plan (the
`CalledProcessError` propagates); tolerated nonzero exits are logged and
skipped. -/
def execPlan (code : Action → Nat) (l : List Action) : ExecOutcome :=
  match l.find? (fatalFailure code) with
  | some a => ExecOutcome.aborted a
  | none => ExecOutcome.completed

/-- Shape invariant of every invocation in a plan: it either carries the
single environment overlay built for the run (with failure not tolerated),
or it is the winetricks invocation (discovered binary, the winetricks
argument vector, no `env=` passed, failure tolerated). -/
def RunShapeOK (ev : WineEnv) (wt : Option String) (wtA : List String) :
    Action → Prop
  | Action.run p args e tol =>
    (e = some ev ∧ tol = false) ∨ (wt = some p ∧ args = wtA ∧ e = none ∧ tol = true)
  | _ => True

/-! ## Concrete inputs used by witnesses and counterexamples -/

/-- A minimal ambient environment. -/
def amb0 : Ambient :=
  { display := some ":0"
    xauthority := some "/home/user/.Xauthority"
    path := "/usr/bin:/bin"
    winedebug := none
    wineesync := ""
    winearch := none
    user := some "user"
    username := none
    home := "/home/user" }

/-- A default request. -/
def req0 : PrefixRequest := { prefix_name := "testpfx" }

/-- A request passing the reserved version keyword `win10` as a caller trick
while the selected Windows version is the default `10`. -/
def req5 : PrefixRequest := { prefix_name := "testpfx", tricks := ["win10"] }

/-- A request with a non-default DPI. -/
def reqDpi : PrefixRequest := { prefix_name := "testpfx", dpi := 120 }

/-- A 32-bit request with the NVAPI interop layer enabled. -/
def req32 : PrefixRequest :=
  { prefix_name := "testpfx", _32bit := true, dxvk_nvapi := true }

/-- A request with the Noto Sans substitution enabled. -/
def reqNoto : PrefixRequest := { prefix_name := "testpfx", noto_sans := true }

/-- The font descriptor described by the spec's encoder test vector: face
name `Noto Sans`, normal weight, all boolean style flags false, default
charset/output-precision/clip-precision/quality enumerants, and
pitch-and-family `VARIABLE_PITCH | FF_SWISS` (exactly the `LOGFONTW` the
source builds for every non-`Caption` window-metrics entry). -/
def notoNormalLogfont : LOGFONTW :=
  { lfHeight := -12
    lfWidth := 0
    lfEscapement := 0
    lfOrientation := 0
    lfWeight := FW_NORMAL
    lfItalic := false
    lfUnderline := false
    lfStrikeOut := false
    lfCharSet := DEFAULT_CHARSET
    lfOutPrecision := OUT_DEFAULT_PRECIS
    lfClipPrecision := CLIP_DEFAULT_PRECIS
    lfQuality := DEFAULT_QUALITY
    lfPitchAndFamily := Nat.lor VARIABLE_PITCH FF_SWISS }

/-- The font descriptor the source builds for a window-metrics entry, as a
function of the selected weight (400 for normal entries, 700 for
`Caption`); all other fields are the fixed arguments of the
`LOGFONTW(...)` call. -/
def logfontAtWeight (w : Int) : LOGFONTW :=
  { lfHeight := -12
    lfWidth := 0
    lfEscapement := 0
    lfOrientation := 0
    lfWeight := w
    lfItalic := false
    lfUnderline := false
    lfStrikeOut := false
    lfCharSet := DEFAULT_CHARSET
    lfOutPrecision := OUT_DEFAULT_PRECIS
    lfClipPrecision := CLIP_DEFAULT_PRECIS
    lfQuality := DEFAULT_QUALITY
    lfPitchAndFamily := Nat.lor VARIABLE_PITCH FF_SWISS }

/-- External state: target does not exist, no tools discoverable. -/
def ext0 : ExternalState :=
  { targetExists := false
    rootExists := true
    winetricksPath := none
    wineasioPath := none
    q4wineDbExists := false
    tmpdir := "/tmp" }

/-- External state: target (and hence the root) already exists. -/
def extExists : ExternalState :=
  { targetExists := true
    rootExists := true
    winetricksPath := none
    wineasioPath := none
    q4wineDbExists := false
    tmpdir := "/tmp" }

/-- External state: winetricks discoverable at `/usr/bin/winetricks`. -/
def extWt : ExternalState :=
  { targetExists := false
    rootExists := true
    winetricksPath := some "/usr/bin/winetricks"
    wineasioPath := none
    q4wineDbExists := false
    tmpdir := "/tmp" }

/-! ## Helper lemmas: the string order -/

theorem lexLe_total (a b : List Char) : lexLe a b = true ∨ lexLe b a = true := by
  induction a generalizing b with
  | nil => left; rfl
  | cons x xs ih =>
    cases b with
    | nil => right; rfl
    | cons y ys =>
      by_cases h1 : x.val.toNat < y.val.toNat
      · left; simp [lexLe, h1]
      · by_cases h2 : y.val.toNat < x.val.toNat
        · right; simp [lexLe, h1, h2]
        · rcases ih ys with h | h
          · left; simp [lexLe, h1, h2, h]
          · right; simp [lexLe, h1, h2, h]

theorem lexLe_trans {a b c : List Char} (h1 : lexLe a b = true)
    (h2 : lexLe b c = true) : lexLe a c = true := by
  induction a generalizing b c with
  | nil => rfl
  | cons x xs ih =>
    cases b with
    | nil => simp [lexLe] at h1
    | cons y ys =>
      cases c with
      | nil => simp [lexLe] at h2
      | cons z zs =>
        simp only [lexLe] at h1 h2 ⊢
        split at h1 <;> split at h2 <;> rename_i hxy hyz
        · simp; omega
        · split at h2 <;> rename_i hzy
          · simp at h2
          · simp; omega
        · split at h1 <;> rename_i hyx
          · simp at h1
          · simp; omega
        · split at h1 <;> rename_i hyx
          · simp at h1
          · split at h2 <;> rename_i hzy
            · simp at h2
            · have hxz : ¬ x.val.toNat < z.val.toNat := by omega
              have hzx : ¬ z.val.toNat < x.val.toNat := by omega
              simp only [hxz, hzx, if_false]
              exact ih h1 h2

theorem strRel_total : ∀ a b : String, strRel a b ∨ strRel b a :=
  fun a b => lexLe_total a.data b.data

theorem strRel_trans : ∀ a b c : String, strRel a b → strRel b c → strRel a c :=
  fun _ _ _ => lexLe_trans

theorem sortedDedup_sorted (l : List String) :
    (sortedDedup l).Sorted strRel :=
  @List.sorted_insertionSort String strRel _ ⟨strRel_total⟩
    ⟨strRel_trans⟩ l.dedup

theorem sortedDedup_nodup (l : List String) : (sortedDedup l).Nodup :=
  ((List.perm_insertionSort strRel l.dedup).nodup_iff).mpr (List.nodup_dedup l)

theorem sortedDedup_mem {l : List String} {x : String} :
    x ∈ sortedDedup l ↔ x ∈ l := by
  unfold sortedDedup
  rw [(List.perm_insertionSort strRel l.dedup).mem_iff, List.mem_dedup]

/-! ## Helper lemmas: `opt` blocks -/

theorem mem_opt {α : Type} {a : α} {c : Prop} [Decidable c] {l : List α} :
    a ∈ opt c l ↔ c ∧ a ∈ l := by
  unfold opt; split
  · simp [*]
  · simp [*]

theorem opt_pos {α : Type} {c : Prop} [Decidable c] (h : c) (l : List α) :
    opt c l = l := if_pos h

theorem opt_neg {α : Type} {c : Prop} [Decidable c] (h : ¬c) (l : List α) :
    opt c l = [] := if_neg h

@[simp] theorem filter_opt {α : Type} (p : α → Bool) (c : Prop) [Decidable c]
    (l : List α) : (opt c l).filter p = opt c (l.filter p) := by
  unfold opt; split <;> simp

@[simp] theorem opt_nil {α : Type} (c : Prop) [Decidable c] :
    opt c ([] : List α) = [] := by
  unfold opt; split <;> rfl

/-! ## Helper lemmas: the `vd=` pattern and the version vocabulary -/

theorem vdPrefixed_append (s : String) : vdPrefixed ("vd=" ++ s) = true := by
  unfold vdPrefixed
  rw [show ("vd=" ++ s).data = 'v' :: 'd' :: '=' :: s.data from
    String.data_append "vd=" s]
  rfl

theorem versionValues_not_vdPrefixed :
    ∀ v ∈ winetricksVersionValues, vdPrefixed v = false := by decide

theorem mapping_mem_versionValues (wv : WineWindowsVersion) :
    WINETRICKS_VERSION_MAPPING wv ∈ winetricksVersionValues := by
  cases wv <;> decide

theorem mapping_not_vdPrefixed (wv : WineWindowsVersion) :
    vdPrefixed (WINETRICKS_VERSION_MAPPING wv) = false := by
  cases wv <;> decide

theorem contains_iff_mem {l : List String} {t : String} :
    l.contains t = true ↔ t ∈ l := by
  simp [List.contains]

/-! ## Helper lemmas: UTF-16LE bytes -/

theorem charUtf16le_lt (c : Char) : ∀ b ∈ charUtf16le c, b < 256 := by
  have hval : c.val.toNat < 1114112 := by
    rcases c.valid with h | ⟨h1, h2⟩
    · omega
    · exact h2
  intro b hb
  simp only [charUtf16le] at hb
  split at hb <;> rename_i hlt <;> simp at hb <;> rcases hb with h | h <;>
    try rcases h with h | h
  all_goals omega

theorem utf16le_lt (s : String) : ∀ b ∈ utf16le s, b < 256 := by
  unfold utf16le
  induction s.data with
  | nil => simp
  | cons c cs ih =>
    intro b hb
    simp only [List.foldr_cons] at hb
    rcases List.mem_append.mp hb with h | h
    · exact charUtf16le_lt c b h
    · exact ih b h

theorem faceNameBytes_lt (s : String) : ∀ b ∈ faceNameBytes s, b < 256 := by
  intro b hb
  unfold faceNameBytes ljustZeros at hb
  rcases List.mem_append.mp hb with h | h
  · exact utf16le_lt s b h
  · rw [List.eq_of_mem_replicate h]; omega

theorem faceNameBytes_length_of_le {s : String}
    (h : (utf16le s).length ≤ 64) : (faceNameBytes s).length = 64 := by
  unfold faceNameBytes ljustZeros LF_FULLFACESIZE
  simp only [List.length_append, List.length_replicate]
  omega

theorem int32le_length (i : Int) : (int32le i).length = 4 := rfl

theorem logfontAtWeight_paf (w : Int) :
    (logfontAtWeight w).lfPitchAndFamily = Nat.lor VARIABLE_PITCH FF_SWISS := by
  with_unfolding_all rfl

theorem faceNameBytes_eq_of_gt {s : String}
    (h : 64 < (utf16le s).length) : faceNameBytes s = utf16le s := by
  unfold faceNameBytes ljustZeros LF_FULLFACESIZE
  rw [show 64 - (utf16le s).length = 0 from by omega]
  simp

/-! ## Helper lemmas: segment membership -/

theorem mem_stepsBoot {a : Action} {ev : WineEnv} (h : a ∈ stepsBoot ev) :
    a = bootStep ev ∨ a = serverStep ev := by
  simpa [stepsBoot] using h

theorem mem_stepsFlags {a : Action} {req : PrefixRequest} {ev : WineEnv}
    (h : a ∈ stepsFlags req ev) :
    (req.dpi ≠ DEFAULT_DPI ∧ a = dpiStep ev req.dpi)
    ∨ (req.dxva_vaapi = true ∧ a = dxvaStep ev)
    ∨ (req.eax = true ∧ a = eaxStep ev)
    ∨ (req.gtk = true ∧ a = gtkStep ev)
    ∨ (req.winrt_dark = true ∧
        (a = winrtStep ev "AppsUseLightTheme"
          ∨ a = winrtStep ev "SystemUsesLightTheme"))
    ∨ (req.no_associations = true ∧ a = noAssocStep ev)
    ∨ (req.no_xdg = true ∧ a = dllOverridePlain ev "winemenubuilder.exe")
    ∨ (req.no_mono = true ∧ a = dllOverridePlain ev "mscoree")
    ∨ (req.no_gecko = true ∧ a = dllOverridePlain ev "mshtml")
    ∨ (req.disable_explorer = true ∧ a = dllOverridePlain ev "explorer.exe")
    ∨ (req.disable_services = true ∧ a = dllOverridePlain ev "services.exe") := by
  simp only [stepsFlags, List.mem_append, mem_opt, List.mem_cons,
    List.not_mem_nil, or_false, or_assoc] at h
  exact h

theorem mem_stepsTmpfs {a : Action} {req : PrefixRequest} {amb : Ambient}
    {ext : ExternalState} {target : String} (h : a ∈ stepsTmpfs req amb ext target) :
    req.tmpfs = true ∧
      (a = Action.rmtree (target ++ "/drive_c/users/" ++ usernameOf amb ++ "/Temp")
        ∨ a = Action.rmtree (target ++ "/drive_c/windows/temp")
        ∨ a = Action.symlink
            (target ++ "/drive_c/users/" ++ usernameOf amb ++ "/Temp") ext.tmpdir
        ∨ a = Action.symlink (target ++ "/drive_c/windows/temp") ext.tmpdir) := by
  simp only [stepsTmpfs, mem_opt, List.mem_cons, List.not_mem_nil, or_false] at h
  exact h

theorem mem_stepsWinetricks {a : Action} {req : PrefixRequest}
    {ext : ExternalState} (h : a ∈ stepsWinetricks req ext) :
    ∃ w, ext.winetricksPath = some w ∧ a = winetricksStep w req := by
  unfold stepsWinetricks at h
  split at h
  · rename_i w hw
    exact ⟨w, hw, by simpa using h⟩
  · simp at h

theorem mem_stepsDxvk {a : Action} {req : PrefixRequest} {ev : WineEnv}
    {target : String} (h : a ∈ stepsDxvk req ev target) :
    req.dxvk_nvapi = true ∧
      (a = vkd3dStep ev
        ∨ a = Action.fetch nvidiaLibsUrl
        ∨ a = dllOverrideNative "wine" ev "nvcuda" ∨ a = extractX32 target "nvcuda"
        ∨ a = dllOverrideNative "wine" ev "nvcuvid" ∨ a = extractX32 target "nvcuvid"
        ∨ a = dllOverrideNative "wine" ev "nvencodeapi"
        ∨ a = extractX32 target "nvencodeapi"
        ∨ a = dllOverrideNative "wine" ev "nvapi" ∨ a = extractX32 target "nvapi"
        ∨ (req._32bit = false ∧
            (a = dllOverrideNative "wine64" ev "nvcuda" ∨ a = extractX64 target "nvcuda"
              ∨ a = dllOverrideNative "wine64" ev "nvoptix"
              ∨ a = extractX64 target "nvoptix"
              ∨ a = dllOverrideNative "wine64" ev "nvcuvid"
              ∨ a = extractX64 target "nvcuvid"
              ∨ a = dllOverrideNative "wine64" ev "nvencodeapi64"
              ∨ a = extractX64 target "nvencodeapi64"
              ∨ a = dllOverrideNative "wine64" ev "nvapi64"
              ∨ a = extractX64 target "nvapi64"
              ∨ a = dllOverrideNative "wine64" ev "nvofapi64"
              ∨ a = extractX64 target "nvofapi64"))
        ∨ a = Action.copyFile "/lib64/nvidia/wine/nvngx.dll"
            (target ++ "/drive_c/windows/system32/nvngx.dll")
        ∨ a = Action.copyFile "/lib64/nvidia/wine/_nvngx.dll"
            (target ++ "/drive_c/windows/system32/_nvngx.dll")
        ∨ (req._32bit = false ∧ a = ngxStep ev)) := by
  simp only [stepsDxvk, List.mem_append, mem_opt, List.mem_cons,
    List.not_mem_nil, or_false, or_assoc] at h
  exact h

theorem mem_stepsNoto {a : Action} {req : PrefixRequest} {ev : WineEnv}
    {fo uo : List String} (h : a ∈ stepsNoto req ev fo uo) :
    req.noto_sans = true ∧
      ((∃ x ∈ fo, a = fontSubStep ev x) ∨ ∃ x ∈ uo, a = uiFontStep ev x) := by
  simp only [stepsNoto, mem_opt, List.mem_append, List.mem_map] at h
  refine ⟨h.1, ?_⟩
  rcases h.2 with ⟨x, hx, rfl⟩ | ⟨x, hx, rfl⟩
  · exact Or.inl ⟨x, hx, rfl⟩
  · exact Or.inr ⟨x, hx, rfl⟩

theorem mem_stepsAsio {a : Action} {req : PrefixRequest} {ev : WineEnv}
    {ext : ExternalState} (h : a ∈ stepsAsio req ev ext) :
    req.asio = true ∧
      ∃ r, ext.wineasioPath = some r ∧ a = Action.run r [] (some ev) false := by
  simp only [stepsAsio, mem_opt] at h
  refine ⟨h.1, ?_⟩
  have h2 := h.2
  split at h2
  · rename_i r hr
    exact ⟨r, hr, by simpa using h2⟩
  · simp at h2

theorem mem_stepsDb {a : Action} {req : PrefixRequest} {ext : ExternalState}
    {target : String} (h : a ∈ stepsDb req ext target) :
    ext.q4wineDbExists = true ∧ a = Action.dbPopulate req.prefix_name target := by
  simp only [stepsDb, mem_opt, List.mem_cons, List.not_mem_nil, or_false] at h
  exact h

theorem planActions_of_exists {req : PrefixRequest} {amb : Ambient}
    {ext : ExternalState} {fo uo : List String} (h : ext.targetExists = true) :
    planActions req amb ext fo uo = [Action.ensureDir (rootPath req amb)] := by
  unfold planActions
  simp [h]

theorem mem_planActions {a : Action} {req : PrefixRequest} {amb : Ambient}
    {ext : ExternalState} {fo uo : List String}
    (h : a ∈ planActions req amb ext fo uo) :
    a = Action.ensureDir (rootPath req amb)
    ∨ (ext.targetExists = false ∧
        (a ∈ stepsBoot (buildEnv req amb (targetPath req amb))
          ∨ a ∈ stepsFlags req (buildEnv req amb (targetPath req amb))
          ∨ a ∈ stepsTmpfs req amb ext (targetPath req amb)
          ∨ a ∈ stepsWinetricks req ext
          ∨ a ∈ stepsDxvk req (buildEnv req amb (targetPath req amb)) (targetPath req amb)
          ∨ a ∈ stepsNoto req (buildEnv req amb (targetPath req amb)) fo uo
          ∨ a ∈ stepsAsio req (buildEnv req amb (targetPath req amb)) ext
          ∨ a ∈ stepsDb req ext (targetPath req amb))) := by
  unfold planActions at h
  rcases List.mem_cons.mp h with h | h
  · exact Or.inl h
  · right
    rcases hte : ext.targetExists with _ | _
    · rw [if_neg (by simp [hte])] at h
      simp only [List.mem_append, or_assoc] at h
      exact ⟨rfl, h⟩
    · rw [if_pos (by simp [hte])] at h
      simp at h

/-! ## Helper lemmas: the run-shape invariant -/

theorem plan_run_shape (req : PrefixRequest) (amb : Ambient)
    (ext : ExternalState) (fo uo : List String) :
    ∀ a ∈ planActions req amb ext fo uo,
      RunShapeOK (buildEnv req amb (targetPath req amb)) ext.winetricksPath
        (winetricksArgs req) a := by
  intro a ha
  rcases mem_planActions ha with rfl | ⟨-, hseg⟩
  · trivial
  · rcases hseg with h | h | h | h | h | h | h | h
    · rcases mem_stepsBoot h with rfl | rfl <;> exact Or.inl ⟨rfl, rfl⟩
    · rcases mem_stepsFlags h with ⟨-, rfl⟩ | ⟨-, rfl⟩ | ⟨-, rfl⟩ | ⟨-, rfl⟩ |
        ⟨-, rfl | rfl⟩ | ⟨-, rfl⟩ | ⟨-, rfl⟩ | ⟨-, rfl⟩ | ⟨-, rfl⟩ | ⟨-, rfl⟩ |
        ⟨-, rfl⟩ <;>
        exact Or.inl ⟨rfl, rfl⟩
    · rcases mem_stepsTmpfs h with ⟨-, rfl | rfl | rfl | rfl⟩ <;> trivial
    · obtain ⟨w, hw, rfl⟩ := mem_stepsWinetricks h
      exact Or.inr ⟨hw, rfl, rfl, rfl⟩
    · rcases mem_stepsDxvk h with ⟨-, rfl | rfl | rfl | rfl | rfl | rfl | rfl |
        rfl | rfl | rfl |
        ⟨-, rfl | rfl | rfl | rfl | rfl | rfl | rfl | rfl | rfl | rfl | rfl | rfl⟩ |
        rfl | rfl | ⟨-, rfl⟩⟩ <;>
        first
        | exact Or.inl ⟨rfl, rfl⟩
        | trivial
    · rcases mem_stepsNoto h with ⟨-, ⟨x, -, rfl⟩ | ⟨x, -, rfl⟩⟩ <;>
        exact Or.inl ⟨rfl, rfl⟩
    · obtain ⟨-, r, hr, rfl⟩ := mem_stepsAsio h
      exact Or.inl ⟨rfl, rfl⟩
    · obtain ⟨-, rfl⟩ := mem_stepsDb h
      trivial

/-! ## Helper lemmas: dropping the Noto block -/

theorem stripNoto_stepsBoot (ev : WineEnv) :
    (stepsBoot ev).filter (fun a => !isNotoStep a) = stepsBoot ev := by
  apply List.filter_eq_self.mpr
  intro a ha
  rcases mem_stepsBoot ha with rfl | rfl <;> rfl

theorem stripNoto_stepsFlags (req : PrefixRequest) (ev : WineEnv) :
    (stepsFlags req ev).filter (fun a => !isNotoStep a) = stepsFlags req ev := by
  apply List.filter_eq_self.mpr
  intro a ha
  rcases mem_stepsFlags ha with ⟨-, rfl⟩ | ⟨-, rfl⟩ | ⟨-, rfl⟩ | ⟨-, rfl⟩ |
    ⟨-, rfl | rfl⟩ | ⟨-, rfl⟩ | ⟨-, rfl⟩ | ⟨-, rfl⟩ | ⟨-, rfl⟩ | ⟨-, rfl⟩ |
    ⟨-, rfl⟩ <;> rfl

theorem stripNoto_stepsTmpfs (req : PrefixRequest) (amb : Ambient)
    (ext : ExternalState) (target : String) :
    (stepsTmpfs req amb ext target).filter (fun a => !isNotoStep a)
      = stepsTmpfs req amb ext target := by
  apply List.filter_eq_self.mpr
  intro a ha
  rcases mem_stepsTmpfs ha with ⟨-, rfl | rfl | rfl | rfl⟩ <;> rfl

theorem stripNoto_stepsWinetricks (req : PrefixRequest) (ext : ExternalState) :
    (stepsWinetricks req ext).filter (fun a => !isNotoStep a)
      = stepsWinetricks req ext := by
  apply List.filter_eq_self.mpr
  intro a ha
  obtain ⟨w, -, rfl⟩ := mem_stepsWinetricks ha
  rfl

theorem stripNoto_stepsDxvk (req : PrefixRequest) (ev : WineEnv)
    (target : String) :
    (stepsDxvk req ev target).filter (fun a => !isNotoStep a)
      = stepsDxvk req ev target := by
  apply List.filter_eq_self.mpr
  intro a ha
  rcases mem_stepsDxvk ha with ⟨-, rfl | rfl | rfl | rfl | rfl | rfl | rfl |
    rfl | rfl | rfl |
    ⟨-, rfl | rfl | rfl | rfl | rfl | rfl | rfl | rfl | rfl | rfl | rfl | rfl⟩ |
    rfl | rfl | ⟨-, rfl⟩⟩ <;> rfl

theorem stripNoto_stepsNoto (req : PrefixRequest) (ev : WineEnv)
    (fo uo : List String) :
    (stepsNoto req ev fo uo).filter (fun a => !isNotoStep a) = [] := by
  rw [List.filter_eq_nil_iff]
  intro a ha
  rcases mem_stepsNoto ha with ⟨-, ⟨x, -, rfl⟩ | ⟨x, -, rfl⟩⟩
  · have hx : isNotoStep (fontSubStep ev x) = true := rfl
    simp [hx]
  · have hx : isNotoStep (uiFontStep ev x) = true := rfl
    simp [hx]

theorem stripNoto_stepsAsio (req : PrefixRequest) (ev : WineEnv)
    (ext : ExternalState) :
    (stepsAsio req ev ext).filter (fun a => !isNotoStep a)
      = stepsAsio req ev ext := by
  apply List.filter_eq_self.mpr
  intro a ha
  obtain ⟨-, r, -, rfl⟩ := mem_stepsAsio ha
  rfl

theorem stripNoto_stepsDb (req : PrefixRequest) (ext : ExternalState)
    (target : String) :
    (stepsDb req ext target).filter (fun a => !isNotoStep a)
      = stepsDb req ext target := by
  apply List.filter_eq_self.mpr
  intro a ha
  obtain ⟨-, rfl⟩ := mem_stepsDb ha
  rfl

/-- Dropping the Noto block from a full plan leaves a sequence that does not
depend on the iteration orders of the two sets. -/
theorem stripNoto_planActions (req : PrefixRequest) (amb : Ambient)
    (ext : ExternalState) (fo uo : List String) :
    stripNoto (planActions req amb ext fo uo)
      = Action.ensureDir (rootPath req amb) ::
        (if ext.targetExists then []
          else
            stepsBoot (buildEnv req amb (targetPath req amb))
              ++ stepsFlags req (buildEnv req amb (targetPath req amb))
              ++ stepsTmpfs req amb ext (targetPath req amb)
              ++ stepsWinetricks req ext
              ++ stepsDxvk req (buildEnv req amb (targetPath req amb))
                  (targetPath req amb)
              ++ stepsAsio req (buildEnv req amb (targetPath req amb)) ext
              ++ stepsDb req ext (targetPath req amb)) := by
  unfold stripNoto planActions
  rw [List.filter_cons_of_pos (by rfl)]
  congr 1
  split
  · rfl
  · simp only [List.filter_append, stripNoto_stepsBoot, stripNoto_stepsFlags,
      stripNoto_stepsTmpfs, stripNoto_stepsWinetricks, stripNoto_stepsDxvk,
      stripNoto_stepsNoto, stripNoto_stepsAsio, stripNoto_stepsDb,
      List.append_nil, List.nil_append]

/-! ## Helper lemmas: isolating the DPI step -/

theorem dpiFilter_stepsBoot (ev : WineEnv) :
    (stepsBoot ev).filter isDpiStep = [] := by
  rw [List.filter_eq_nil_iff]
  intro a ha
  rcases mem_stepsBoot ha with rfl | rfl <;> exact fun h => Bool.noConfusion h

theorem dpiFilter_stepsFlags (req : PrefixRequest) (ev : WineEnv) :
    (stepsFlags req ev).filter isDpiStep
      = opt (req.dpi ≠ DEFAULT_DPI) [dpiStep ev req.dpi] := by
  unfold stepsFlags
  simp only [List.filter_append, filter_opt]
  rw [show List.filter isDpiStep [dpiStep ev req.dpi] = [dpiStep ev req.dpi] from
      List.filter_cons_of_pos (by rfl),
    show List.filter isDpiStep [dxvaStep ev] = [] from rfl,
    show List.filter isDpiStep [eaxStep ev] = [] from rfl,
    show List.filter isDpiStep [gtkStep ev] = [] from rfl,
    show List.filter isDpiStep
        [winrtStep ev "AppsUseLightTheme", winrtStep ev "SystemUsesLightTheme"]
      = [] from rfl,
    show List.filter isDpiStep [noAssocStep ev] = [] from rfl,
    show List.filter isDpiStep [dllOverridePlain ev "winemenubuilder.exe"]
      = [] from rfl,
    show List.filter isDpiStep [dllOverridePlain ev "mscoree"] = [] from rfl,
    show List.filter isDpiStep [dllOverridePlain ev "mshtml"] = [] from rfl,
    show List.filter isDpiStep [dllOverridePlain ev "explorer.exe"] = [] from rfl,
    show List.filter isDpiStep [dllOverridePlain ev "services.exe"] = [] from rfl]
  simp only [opt_nil, List.append_nil]

theorem dpiFilter_stepsTmpfs (req : PrefixRequest) (amb : Ambient)
    (ext : ExternalState) (target : String) :
    (stepsTmpfs req amb ext target).filter isDpiStep = [] := by
  rw [List.filter_eq_nil_iff]
  intro a ha
  rcases mem_stepsTmpfs ha with ⟨-, rfl | rfl | rfl | rfl⟩ <;>
    exact fun h => Bool.noConfusion h

theorem dpiFilter_stepsWinetricks (req : PrefixRequest) (ext : ExternalState) :
    (stepsWinetricks req ext).filter isDpiStep = [] := by
  rw [List.filter_eq_nil_iff]
  intro a ha
  obtain ⟨w, -, rfl⟩ := mem_stepsWinetricks ha
  exact fun h => Bool.noConfusion h

theorem dpiFilter_stepsDxvk (req : PrefixRequest) (ev : WineEnv)
    (target : String) :
    (stepsDxvk req ev target).filter isDpiStep = [] := by
  rw [List.filter_eq_nil_iff]
  intro a ha
  rcases mem_stepsDxvk ha with ⟨-, rfl | rfl | rfl | rfl | rfl | rfl | rfl |
    rfl | rfl | rfl |
    ⟨-, rfl | rfl | rfl | rfl | rfl | rfl | rfl | rfl | rfl | rfl | rfl | rfl⟩ |
    rfl | rfl | ⟨-, rfl⟩⟩ <;> exact fun h => Bool.noConfusion h

theorem dpiFilter_stepsNoto (req : PrefixRequest) (ev : WineEnv)
    (fo uo : List String) :
    (stepsNoto req ev fo uo).filter isDpiStep = [] := by
  rw [List.filter_eq_nil_iff]
  intro a ha
  rcases mem_stepsNoto ha with ⟨-, ⟨x, -, rfl⟩ | ⟨x, -, rfl⟩⟩ <;>
    exact fun h => Bool.noConfusion h

theorem dpiFilter_stepsAsio (req : PrefixRequest) (ev : WineEnv)
    (ext : ExternalState) :
    (stepsAsio req ev ext).filter isDpiStep = [] := by
  rw [List.filter_eq_nil_iff]
  intro a ha
  obtain ⟨-, r, -, rfl⟩ := mem_stepsAsio ha
  exact fun h => Bool.noConfusion h

theorem dpiFilter_stepsDb (req : PrefixRequest) (ext : ExternalState)
    (target : String) :
    (stepsDb req ext target).filter isDpiStep = [] := by
  rw [List.filter_eq_nil_iff]
  intro a ha
  obtain ⟨-, rfl⟩ := mem_stepsDb ha
  exact fun h => Bool.noConfusion h

/-! ## Claim C1 -/

/-- C1: for every request whose target directory already exists at planning
time, planning fails with the target-exists condition (`FileExistsError`)
before any external state is touched: no external process is invoked and no
filesystem mutation occurs before the existence check.  The source calls
`prefix_root.mkdir(parents=True, exist_ok=True)` before the check, but since
the target is a child of the prefix root, a pre-existing target entails a
pre-existing root (`hroot`), on which the idempotent `mkdir` creates
nothing. -/
theorem c1_target_exists_no_side_effects (req : PrefixRequest) (amb : Ambient)
    (ext : ExternalState) (fo uo : List String)
    (htgt : ext.targetExists = true) (hroot : ext.rootExists = true) :
    planResult req amb ext = Except.error PlanError.fileExists
    ∧ ∀ a ∈ planActions req amb ext fo uo,
        isExternalInvocation a = false
        ∧ mutatesFilesystem ext.rootExists a = false := by
  constructor
  · unfold planResult
    simp [htgt]
  · intro a ha
    rw [planActions_of_exists htgt] at ha
    rcases List.mem_singleton.mp ha with rfl
    exact ⟨rfl, by simp [mutatesFilesystem, hroot]⟩

/-- C1 witness: the theorem applied to a concrete pre-existing target. -/
theorem c1_witness :
    planResult req0 amb0 extExists = Except.error PlanError.fileExists
    ∧ ∀ a ∈ planActions req0 amb0 extExists [] [],
        isExternalInvocation a = false
        ∧ mutatesFilesystem extExists.rootExists a = false :=
  c1_target_exists_no_side_effects req0 amb0 extExists [] [] rfl rfl

/-! ## Claim C3 -/

/-- C3: for every caller-supplied extra-arguments list (any ordering, any
duplication) and every combination of request flags, the trick-argument
portion of the final winetricks argument vector (`finalTricks`, i.e. the
vector after the four fixed arguments) is sorted ascending in the
code-point-lexicographic string order and contains no duplicates. -/
theorem c3_final_tricks_sorted_nodup (req : PrefixRequest) :
    (finalTricks req).Sorted strRel ∧ (finalTricks req).Nodup
    ∧ winetricksArgs req
      = ["--force", "--country=US", "--unattended",
          "prefix=" ++ req.prefix_name] ++ finalTricks req :=
  ⟨sortedDedup_sorted _, sortedDedup_nodup _, rfl⟩

/-- C3 witness: the theorem applied to a concrete request. -/
theorem c3_witness :
    (finalTricks req5).Sorted strRel ∧ (finalTricks req5).Nodup
    ∧ winetricksArgs req5
      = ["--force", "--country=US", "--unattended",
          "prefix=" ++ req5.prefix_name] ++ finalTricks req5 :=
  c3_final_tricks_sorted_nodup req5

/-! ## Claim C7 -/

/-- C7: for every request whose DPI equals the default 96 the emitted plan
contains no DPI registry-edit invocation, and for every other DPI value it
contains exactly one, whose `/d` argument is the DPI stringified in
decimal (`toString`). -/
theorem c7_dpi_step (req : PrefixRequest) (amb : Ambient) (ext : ExternalState)
    (fo uo : List String) (h : ext.targetExists = false) :
    (planActions req amb ext fo uo).filter isDpiStep
      = if req.dpi = DEFAULT_DPI then []
        else [dpiStep (buildEnv req amb (targetPath req amb)) req.dpi] := by
  unfold planActions
  rw [List.filter_cons_of_neg (fun hh => Bool.noConfusion hh)]
  rw [if_neg (by simp [h])]
  simp only [List.filter_append, dpiFilter_stepsBoot, dpiFilter_stepsFlags,
    dpiFilter_stepsTmpfs, dpiFilter_stepsWinetricks, dpiFilter_stepsDxvk,
    dpiFilter_stepsNoto, dpiFilter_stepsAsio, dpiFilter_stepsDb,
    List.append_nil, List.nil_append]
  by_cases hd : req.dpi = DEFAULT_DPI
  · simp [opt, hd]
  · simp [opt, hd]

/-- C7 witness: the theorem applied to a concrete request with DPI 120. -/
theorem c7_witness :
    (planActions reqDpi amb0 ext0 [] []).filter isDpiStep
      = if reqDpi.dpi = DEFAULT_DPI then []
        else [dpiStep (buildEnv reqDpi amb0 (targetPath reqDpi amb0)) reqDpi.dpi] :=
  c7_dpi_step reqDpi amb0 ext0 [] [] rfl

/-! ## Claim C8 -/

/-- C8: for every request with both the NVAPI interop-layer flag and the
32-bit flag set, the emitted plan contains no 64-bit-specific step: no
`wine64` registry edit, no extraction of an `x64` archive member, and no
NGXCore `FullPath` registry edit. -/
theorem c8_no_64bit_steps (req : PrefixRequest) (amb : Ambient)
    (ext : ExternalState) (fo uo : List String)
    (_hdx : req.dxvk_nvapi = true) (h32 : req._32bit = true) :
    ∀ a ∈ planActions req amb ext fo uo, is64BitOnlyStep a = false := by
  intro a ha
  rcases mem_planActions ha with rfl | ⟨-, hseg⟩
  · rfl
  · rcases hseg with h | h | h | h | h | h | h | h
    · rcases mem_stepsBoot h with rfl | rfl <;> rfl
    · rcases mem_stepsFlags h with ⟨-, rfl⟩ | ⟨-, rfl⟩ | ⟨-, rfl⟩ | ⟨-, rfl⟩ |
        ⟨-, rfl | rfl⟩ | ⟨-, rfl⟩ | ⟨-, rfl⟩ | ⟨-, rfl⟩ | ⟨-, rfl⟩ | ⟨-, rfl⟩ |
        ⟨-, rfl⟩ <;> rfl
    · rcases mem_stepsTmpfs h with ⟨-, rfl | rfl | rfl | rfl⟩ <;> rfl
    · obtain ⟨w, -, rfl⟩ := mem_stepsWinetricks h
      rfl
    · rcases mem_stepsDxvk h with ⟨-, rfl | rfl | rfl | rfl | rfl | rfl | rfl |
        rfl | rfl | rfl | ⟨h32f, -⟩ | rfl | rfl | ⟨h32f, -⟩⟩ <;>
        first
        | rfl
        | (rw [h32] at h32f; exact Bool.noConfusion h32f)
    · rcases mem_stepsNoto h with ⟨-, ⟨x, -, rfl⟩ | ⟨x, -, rfl⟩⟩ <;> rfl
    · obtain ⟨-, r, -, rfl⟩ := mem_stepsAsio h
      rfl
    · obtain ⟨-, rfl⟩ := mem_stepsDb h
      rfl

/-- C8 witness: the theorem applied to a concrete 32-bit interop request at
a concrete step of its plan (the interop installer invocation). -/
theorem c8_witness :
    is64BitOnlyStep (vkd3dStep (buildEnv req32 amb0 (targetPath req32 amb0)))
      = false :=
  c8_no_64bit_steps req32 amb0 ext0 [] [] rfl rfl _ (by decide)

/-! ## Claim C4 -/

/-- C4 counterexample: with winetricks discoverable, the plan contains an
external-process invocation that does not use the environment overlay — the
winetricks invocation is issued without `env=` (`sp.run(cmd, check=True)`,
`prefix.py` line 400), so it inherits the ambient environment instead of the
overlay, refuting "every subsequent external-process invocation step in the
plan uses this same overlay as its process environment". -/
theorem c4_counterexample :
    (planActions req0 amb0 extWt [] []).any
      (runWithoutOverlay (buildEnv req0 amb0 (targetPath req0 amb0))) = true := by
  decide

/-- C4 (amended): the environment overlay is built once per planning run
(`buildEnv`), and every external-process invocation in the plan uses exactly
this overlay, with the single exception of the winetricks invocation, which
is run without an explicit environment (it inherits the ambient one). -/
theorem c4_env_overlay_except_winetricks (req : PrefixRequest) (amb : Ambient)
    (ext : ExternalState) (fo uo : List String) :
    ∀ a ∈ planActions req amb ext fo uo, ∀ p args e tol,
      a = Action.run p args e tol →
        e = some (buildEnv req amb (targetPath req amb))
        ∨ (ext.winetricksPath = some p ∧ args = winetricksArgs req ∧ e = none
            ∧ tol = true) := by
  intro a ha p args e tol heq
  subst heq
  have hs := plan_run_shape req amb ext fo uo _ ha
  rcases hs with ⟨he, -⟩ | ⟨hw, hargs, he, ht⟩
  · exact Or.inl he
  · exact Or.inr ⟨hw, hargs, he, ht⟩

/-- C4 witness: the amended theorem applied to the concrete initialization
step of a concrete plan. -/
theorem c4_witness :
    (some (buildEnv req0 amb0 (targetPath req0 amb0)) : Option WineEnv)
        = some (buildEnv req0 amb0 (targetPath req0 amb0))
      ∨ (ext0.winetricksPath = some "wineboot" ∧ ["--init"] = winetricksArgs req0
          ∧ (some (buildEnv req0 amb0 (targetPath req0 amb0)) : Option WineEnv) = none
          ∧ false = true) :=
  c4_env_overlay_except_winetricks req0 amb0 ext0 [] [] _ (by decide)
    "wineboot" ["--init"] (some (buildEnv req0 amb0 (targetPath req0 amb0)))
    false rfl

/-! ## Claim C6 -/

theorem fatalFailure_eq_true {code : Action → Nat} {a : Action} :
    fatalFailure code a = true
      ↔ runTolerated a = false ∧ isRun a = true ∧ code a ≠ 0 := by
  cases a <;>
    simp [fatalFailure, runTolerated, isRun, Bool.and_eq_true, Bool.not_eq_true']

/-- C6: a nonzero exit of the winetricks invocation is the sole tolerated
process failure in the whole plan: (1) every tolerated-failure invocation in
the plan is the winetricks invocation; (2) if the only failing invocations
are the winetricks one, execution of the plan completes; (3) a nonzero exit
of any other invocation aborts execution, surfacing a failing non-tolerated
invocation. -/
theorem c6_sole_tolerated_failure (req : PrefixRequest) (amb : Ambient)
    (ext : ExternalState) (fo uo : List String) (w : String)
    (hw : ext.winetricksPath = some w) :
    (∀ a ∈ planActions req amb ext fo uo,
        runTolerated a = true → a = winetricksStep w req)
    ∧ (∀ code : Action → Nat,
        (∀ a ∈ planActions req amb ext fo uo, isRun a = true → code a ≠ 0 →
          a = winetricksStep w req) →
        execPlan code (planActions req amb ext fo uo) = ExecOutcome.completed)
    ∧ (∀ code : Action → Nat, ∀ a ∈ planActions req amb ext fo uo,
        isRun a = true → runTolerated a = false → code a ≠ 0 →
        ∃ b ∈ planActions req amb ext fo uo,
          execPlan code (planActions req amb ext fo uo) = ExecOutcome.aborted b
          ∧ runTolerated b = false ∧ code b ≠ 0) := by
  have key : ∀ a ∈ planActions req amb ext fo uo,
      runTolerated a = true → a = winetricksStep w req := by
    intro a ha htol
    have hs := plan_run_shape req amb ext fo uo a ha
    cases a with
    | run p args e tol =>
      rcases hs with ⟨-, htf⟩ | ⟨hw2, hargs, he, ht⟩
      · rw [show runTolerated (Action.run p args e tol) = tol from rfl] at htol
        rw [htf] at htol
        exact Bool.noConfusion htol
      · rw [hw] at hw2
        obtain rfl := Option.some.inj hw2
        rw [hargs, he, ht]
        rfl
    | ensureDir p => exact Bool.noConfusion htol
    | rmtree p => exact Bool.noConfusion htol
    | symlink p d => exact Bool.noConfusion htol
    | fetch u => exact Bool.noConfusion htol
    | extractTo m n d => exact Bool.noConfusion htol
    | copyFile s d => exact Bool.noConfusion htol
    | dbPopulate n t => exact Bool.noConfusion htol
  refine ⟨key, ?_, ?_⟩
  · intro code hcode
    have hnone : (planActions req amb ext fo uo).find? (fatalFailure code)
        = none := by
      apply List.find?_eq_none.mpr
      intro a ha hfat
      obtain ⟨htol, hrun, hne⟩ := fatalFailure_eq_true.mp hfat
      have := hcode a ha hrun hne
      rw [this] at htol
      exact Bool.noConfusion htol
    unfold execPlan
    rw [hnone]
  · intro code a ha hrun htol hne
    have hfat : fatalFailure code a = true :=
      fatalFailure_eq_true.mpr ⟨htol, hrun, hne⟩
    have hsome : ((planActions req amb ext fo uo).find?
        (fatalFailure code)).isSome :=
      List.find?_isSome.mpr ⟨a, ha, hfat⟩
    obtain ⟨b, hb⟩ := Option.isSome_iff_exists.mp hsome
    obtain ⟨htolb, -, hneb⟩ := fatalFailure_eq_true.mp (List.find?_some hb)
    refine ⟨b, List.mem_of_find?_eq_some hb, ?_, htolb, hneb⟩
    unfold execPlan
    rw [hb]

/-- C6 witness: the theorem applied to a concrete plan with winetricks
discoverable. -/
theorem c6_witness :
    (∀ a ∈ planActions req0 amb0 extWt [] [],
        runTolerated a = true → a = winetricksStep "/usr/bin/winetricks" req0)
    ∧ (∀ code : Action → Nat,
        (∀ a ∈ planActions req0 amb0 extWt [] [], isRun a = true → code a ≠ 0 →
          a = winetricksStep "/usr/bin/winetricks" req0) →
        execPlan code (planActions req0 amb0 extWt [] []) = ExecOutcome.completed)
    ∧ (∀ code : Action → Nat, ∀ a ∈ planActions req0 amb0 extWt [] [],
        isRun a = true → runTolerated a = false → code a ≠ 0 →
        ∃ b ∈ planActions req0 amb0 extWt [] [],
          execPlan code (planActions req0 amb0 extWt [] []) = ExecOutcome.aborted b
          ∧ runTolerated b = false ∧ code b ≠ 0) :=
  c6_sole_tolerated_failure req0 amb0 extWt [] [] "/usr/bin/winetricks" rfl

/-! ## Claim C2 -/

/-- C2 counterexample: the claim asserts that in the 92-byte encoding the
8-byte region after the first 20 bytes is all zero except the byte at index
4 of that region, which would hold charset = 1.  In fact the charset byte 1
sits at region index 3 (overall offset 23), region index 4 (offset 24, the
output-precision byte) is 0, and region index 7 (offset 27, the
pitch-and-family byte) holds `VARIABLE_PITCH | FF_SWISS` = 0x22 = 34, so the
region is `[0,0,0,1,0,0,0,34]`, not `[0,0,0,0,1,0,0,0]`. -/
theorem c2_counterexample :
    (((packLogfont notoNormalLogfont (faceNameBytes "Noto Sans")).getD
        []).drop 20).take 8 = [0, 0, 0, 1, 0, 0, 0, 34]
    ∧ ([0, 0, 0, 1, 0, 0, 0, 34] : List Nat) ≠ [0, 0, 0, 0, 1, 0, 0, 0] := by
  constructor
  · decide
  · decide

/-- C2 (amended): encoding the descriptor with face name `Noto Sans`, normal
weight 400, all boolean style flags false, default
charset/output-precision/clip-precision/quality enumerants and
pitch-and-family `VARIABLE_PITCH | FF_SWISS` yields exactly 92 bytes: the
first 20 bytes decode as the five little-endian signed 32-bit integers
`(-12, 0, 0, 0, 400)`; the following 8 bytes are all zero except the byte at
index 3 of that region (overall offset 23), which holds charset = 1, and the
byte at index 7 (overall offset 27), which holds pitch-and-family = 0x22;
and the final 64 bytes are the UTF-16LE encoding of `Noto Sans` (18 bytes)
followed by null padding.  This is also exactly the blob the planner embeds
for every non-`Caption` window-metrics entry. -/
theorem c2_amended :
    (packLogfont notoNormalLogfont (faceNameBytes "Noto Sans")).isSome = true
    ∧ ((packLogfont notoNormalLogfont (faceNameBytes "Noto Sans")).getD
        []).length = 92
    ∧ ((packLogfont notoNormalLogfont (faceNameBytes "Noto Sans")).getD
        []).take 20
      = int32le (-12) ++ int32le 0 ++ int32le 0 ++ int32le 0 ++ int32le 400
    ∧ ((((packLogfont notoNormalLogfont (faceNameBytes "Noto Sans")).getD
        []).drop 20).take 8)
      = [0, 0, 0, DEFAULT_CHARSET, 0, 0, 0, 34]
    ∧ ((packLogfont notoNormalLogfont (faceNameBytes "Noto Sans")).getD
        []).drop 28
      = utf16le "Noto Sans" ++ List.replicate 46 0
    ∧ (utf16le "Noto Sans").length = 18
    ∧ notoBlobBytes "Message"
      = (packLogfont notoNormalLogfont (faceNameBytes "Noto Sans")).getD [] := by
  refine ⟨by decide, by decide, by decide, by decide, by decide, by decide,
    by decide⟩

/-! ## Claim C10 -/

/-- C10: for every face name whose UTF-16LE encoding is at most 64 bytes,
the font-descriptor encoding (at either weight the source uses) produces
exactly 92 bytes; for any face name whose UTF-16LE encoding exceeds 64
bytes, the `ljust` padding leaves it longer than the 64 arguments the
`'=5l8B64B'` format requires and the pack raises an error (`none`) rather
than silently truncating; and the error branch is unreachable for the
hardcoded `Noto Sans` input, whose encoding is 18 bytes. -/
theorem c10_face_name_bounds (s : String) (w : Int)
    (hw : w = FW_NORMAL ∨ w = FW_BOLD) :
    ((utf16le s).length ≤ 64 →
      ∃ b, packLogfont (logfontAtWeight w)
          (faceNameBytes s) = some b ∧ b.length = 92)
    ∧ (64 < (utf16le s).length →
        packLogfont (logfontAtWeight w)
          (faceNameBytes s) = none)
    ∧ (utf16le "Noto Sans").length ≤ 64 := by
  refine ⟨?_, ?_, by decide⟩
  · intro h
    unfold packLogfont
    rw [if_pos]
    · refine ⟨_, rfl, ?_⟩
      simp only [List.length_append, List.length_cons, List.length_nil,
        int32le_length, faceNameBytes_length_of_le h]
    · exact ⟨by show int32InRange (-12 : Int); decide,
        by show int32InRange (0 : Int); decide,
        by show int32InRange (0 : Int); decide,
        by show int32InRange (0 : Int); decide,
        by show int32InRange w; rcases hw with rfl | rfl <;> decide,
        by show DEFAULT_CHARSET < 256; decide,
        by show OUT_DEFAULT_PRECIS < 256; decide,
        by show CLIP_DEFAULT_PRECIS < 256; decide,
        by show DEFAULT_QUALITY < 256; decide,
        by rw [logfontAtWeight_paf]; decide,
        by rw [faceNameBytes_length_of_le h]; rfl,
        faceNameBytes_lt s⟩
  · intro h
    have hlen : (faceNameBytes s).length ≠ LF_FULLFACESIZE := by
      rw [faceNameBytes_eq_of_gt h]
      unfold LF_FULLFACESIZE
      omega
    unfold packLogfont
    rw [if_neg]
    intro hc
    exact hlen hc.2.2.2.2.2.2.2.2.2.2.1

/-- C10 witness: the theorem applied at the hardcoded face name and normal
weight. -/
theorem c10_witness :
    ((utf16le "Noto Sans").length ≤ 64 →
      ∃ b, packLogfont (logfontAtWeight FW_NORMAL)
          (faceNameBytes "Noto Sans") = some b ∧ b.length = 92)
    ∧ (64 < (utf16le "Noto Sans").length →
        packLogfont (logfontAtWeight FW_NORMAL)
          (faceNameBytes "Noto Sans") = none)
    ∧ (utf16le "Noto Sans").length ≤ 64 :=
  c10_face_name_bounds "Noto Sans" FW_NORMAL (Or.inl rfl)

/-! ## Claim C5 -/

theorem contains_eq_false_iff {l : List String} {t : String} :
    l.contains t = false ↔ t ∉ l := by
  rw [← contains_iff_mem]
  cases l.contains t <;> simp

/-- C5 counterexample: a caller-supplied entry equal to a reserved version
keyword is not always excluded from the final configuration-tool argument
set.  With the default Windows version `10`, passing `win10` as a caller
trick leaves `win10` in the final set (the planner itself appends the
selected version keyword after filtering the caller list). -/
theorem c5_counterexample :
    "win10" ∈ req5.tricks ∧ "win10" ∈ winetricksVersionValues
    ∧ "win10" ∈ finalTricks req5 := by
  refine ⟨by decide, by decide, by decide⟩

/-- C5 (amended): caller-supplied entries matching a reserved version
keyword or the `vd=` pattern are dropped from the caller list before the
planner appends its own keywords, so (1) the final argument set is unchanged
when the caller list is pre-filtered, i.e. such caller entries never
contribute; (2) a version keyword appears in the final set only as the
planner-selected version keyword; (3) a `vd=`-prefixed entry appears only as
the planner-built `vd=` argument when a virtual desktop is requested. -/
theorem c5_reserved_tricks_filtered (req : PrefixRequest) :
    finalTricks { req with tricks := req.tricks.filter allowedTrick }
      = finalTricks req
    ∧ (∀ t ∈ finalTricks req, t ∈ winetricksVersionValues →
        t = WINETRICKS_VERSION_MAPPING req.windows_version)
    ∧ (∀ t ∈ finalTricks req, vdPrefixed t = true →
        req.vd ≠ "off" ∧ t = "vd=" ++ req.vd) := by
  refine ⟨?_, ?_, ?_⟩
  · show sortedDedup ((req.tricks.filter allowedTrick).filter allowedTrick
        ++ opt req.dxvk_nvapi ["dxvk"]
        ++ [WINETRICKS_VERSION_MAPPING req.windows_version]
        ++ opt req.sandbox ["isolate_home", "sandbox"]
        ++ opt (req.vd ≠ "off") ["vd=" ++ req.vd])
      = _
    rw [List.filter_filter]
    simp [Bool.and_self, finalTricks, tricksListFull, filteredTricks]
  · intro t ht hv
    have htL : t ∈ tricksListFull req := sortedDedup_mem.mp ht
    unfold tricksListFull filteredTricks at htL
    simp only [List.mem_append, mem_opt, List.mem_cons, List.not_mem_nil,
      or_false, or_assoc] at htL
    rcases htL with htF | ⟨-, rfl⟩ | rfl | ⟨-, rfl | rfl⟩ | ⟨-, rfl⟩
    · obtain ⟨-, hall⟩ := List.mem_filter.mp htF
      unfold allowedTrick at hall
      simp only [Bool.and_eq_true, Bool.not_eq_true'] at hall
      exact absurd hv (contains_eq_false_iff.mp hall.1)
    · exact absurd hv (by decide)
    · rfl
    · exact absurd hv (by decide)
    · exact absurd hv (by decide)
    · have h1 := vdPrefixed_append req.vd
      have h2 := versionValues_not_vdPrefixed _ hv
      rw [h1] at h2
      exact Bool.noConfusion h2
  · intro t ht hvd
    have htL : t ∈ tricksListFull req := sortedDedup_mem.mp ht
    unfold tricksListFull filteredTricks at htL
    simp only [List.mem_append, mem_opt, List.mem_cons, List.not_mem_nil,
      or_false, or_assoc] at htL
    rcases htL with htF | ⟨-, rfl⟩ | rfl | ⟨-, rfl | rfl⟩ | ⟨hoff, rfl⟩
    · obtain ⟨-, hall⟩ := List.mem_filter.mp htF
      unfold allowedTrick at hall
      simp only [Bool.and_eq_true, Bool.not_eq_true'] at hall
      have h2 := hall.2
      rw [hvd] at h2
      exact Bool.noConfusion h2
    · exact absurd hvd (by decide)
    · have h2 := mapping_not_vdPrefixed req.windows_version
      rw [hvd] at h2
      exact Bool.noConfusion h2
    · exact absurd hvd (by decide)
    · exact absurd hvd (by decide)
    · exact ⟨hoff, rfl⟩

/-- C5 witness: the amended theorem applied to a concrete request passing a
reserved keyword. -/
theorem c5_witness :
    finalTricks { req5 with tricks := req5.tricks.filter allowedTrick }
      = finalTricks req5
    ∧ (∀ t ∈ finalTricks req5, t ∈ winetricksVersionValues →
        t = WINETRICKS_VERSION_MAPPING req5.windows_version)
    ∧ (∀ t ∈ finalTricks req5, vdPrefixed t = true →
        req5.vd ≠ "off" ∧ t = "vd=" ++ req5.vd) :=
  c5_reserved_tricks_filtered req5

/-! ## Claim C9 -/

/-- C9: given identical request, ambient environment and external state, the
planner emits identical action sequences regardless of the iteration orders
of the font-substitution set and the UI-element set: the two plans are
permutations of each other, and after dropping the Noto block steps (the
only steps produced from those two sets) they are equal as sequences. -/
theorem c9_deterministic_mod_noto_sets (req : PrefixRequest) (amb : Ambient)
    (ext : ExternalState) (fo uo fo2 uo2 : List String)
    (hf : fo.Perm notoFontReplacements) (hf2 : fo2.Perm notoFontReplacements)
    (hu : uo.Perm notoRegistryEntries) (hu2 : uo2.Perm notoRegistryEntries) :
    (planActions req amb ext fo uo).Perm (planActions req amb ext fo2 uo2)
    ∧ stripNoto (planActions req amb ext fo uo)
        = stripNoto (planActions req amb ext fo2 uo2) := by
  constructor
  · unfold planActions
    apply List.Perm.cons
    by_cases hte : ext.targetExists = true
    · simp [hte]
    · rw [if_neg (by simpa using hte), if_neg (by simpa using hte)]
      have hnoto : (stepsNoto req (buildEnv req amb (targetPath req amb)) fo uo).Perm
          (stepsNoto req (buildEnv req amb (targetPath req amb)) fo2 uo2) := by
        unfold stepsNoto opt
        split
        · exact List.Perm.append ((hf.trans hf2.symm).map _)
            ((hu.trans hu2.symm).map _)
        · exact List.Perm.refl _
      exact ((hnoto.append_left _).append_right _).append_right _
  · rw [stripNoto_planActions, stripNoto_planActions]

/-- C9 witness: the theorem applied to a concrete Noto Sans request with the
two set orders reversed against each other. -/
theorem c9_witness :
    (planActions reqNoto amb0 ext0 notoFontReplacements notoRegistryEntries).Perm
      (planActions reqNoto amb0 ext0 notoFontReplacements.reverse
        notoRegistryEntries.reverse)
    ∧ stripNoto (planActions reqNoto amb0 ext0 notoFontReplacements
        notoRegistryEntries)
      = stripNoto (planActions reqNoto amb0 ext0 notoFontReplacements.reverse
          notoRegistryEntries.reverse) :=
  c9_deterministic_mod_noto_sets reqNoto amb0 ext0 notoFontReplacements
    notoRegistryEntries notoFontReplacements.reverse notoRegistryEntries.reverse
    (List.Perm.refl _) (List.reverse_perm _) (List.Perm.refl _)
    (List.reverse_perm _)

end Mkwineprefix
